import Mathlib

/-!
Verification of the content-scoring, source-selection, citation-extraction
and report-assembly core of the bug-free-winner research-report pipeline
(src/src/reports/generator.ts and src/unnamed/part_004, the database layer).

Modelling conventions:
* JavaScript `number` arithmetic is modelled exactly over `ℚ` for stored
  scores, counts and timestamps, and over `ℝ` where the code applies
  `Math.pow` (the freshness half-life decay).
* `Date` values are modelled as rational epoch-millisecond timestamps; the
  ambient clock (`new Date()` / `Date.now()`) is passed explicitly as a
  `now : ℚ` argument, so stateful reads of the clock become explicit
  state passing.
* Strings are Lean `String`s; the specific regular expressions of the code
  are implemented as character-list scanners mirroring the patterns.
* External collaborators (the Postgres text search, the Groq generation
  backend, node's `crypto.createHash('md5')`) are inputs: search results
  arrive as lists, generated text as a string, and md5 as an arbitrary
  `String → String` argument (only its determinism — being a function —
  is used, which is all the code relies on).
-/

namespace BFW

/-! ## String helpers -/

/-- The run of leading characters satisfying `p`, and the rest. -/
def takeRunList (p : Char → Bool) : List Char → List Char × List Char
  | [] => ([], [])
  | c :: cs =>
    if p c then
      let r := takeRunList p cs
      (c :: r.1, r.2)
    else ([], c :: cs)

/-- Strip a literal prefix (first argument) from a character list. -/
def stripHead : List Char → List Char → Option (List Char)
  | [], cs => some cs
  | p :: ps, c :: cs => if c = p then stripHead ps cs else none
  | _ :: _, [] => none

/-- Numeric value of a run of decimal digits (JS `parseInt` on a `\d+` match). -/
def digitsVal (ds : List Char) : Nat := ds.foldl (fun a c => 10 * a + (c.toNat - 48)) 0

/-- JS `String.prototype.split(/\s+/)` on a character list: the pieces
between maximal whitespace runs (leading/trailing whitespace contributes an
empty piece, and the empty string yields one empty piece). -/
def jsSplitWs (cs : List Char) (acc : List Char) : List (List Char) :=
  match cs with
  | [] => [acc.reverse]
  | c :: rest =>
    if c.isWhitespace then acc.reverse :: jsSplitWs (rest.dropWhile Char.isWhitespace) []
    else jsSplitWs rest (c :: acc)
termination_by cs.length
decreasing_by
  · exact Nat.lt_succ_of_le (List.dropWhile_sublist _).length_le
  · simp

/-- `text.trim().split(/\s+/).filter(word => word.length > 0).length`
(`ReportGenerator.countWords` / `ContentScorer.countWords`). -/
def countWords (text : String) : Nat :=
  ((jsSplitWs text.trim.data []).filter (fun w => w ≠ [])).length

/-- `s.replace(/\s+/g, ' ').trim()`: whitespace runs collapse to single
blanks and the ends are trimmed. -/
def collapseWs (s : String) : String :=
  String.intercalate " " (((jsSplitWs s.data []).filter (fun w => w ≠ [])).map
    (fun w => String.mk w))

/-- `ContentScorer.createSnippet`: collapse whitespace, truncate to
`maxLength` characters with an ellipsis. -/
def createSnippet (content : String) (maxLength : Nat) : String :=
  if content = "" then ""
  else
    let cleaned := collapseWs content
    if maxLength < cleaned.length then cleaned.take maxLength ++ "..." else cleaned

/-- JS `a || b` on optional strings: the empty string is falsy. -/
def jsOrS (a : Option String) (b : String) : String :=
  match a with
  | some s => if s = "" then b else s
  | none => b

/-! ## The citation-marker scanner

`/\[Source (\d+)\]/g` as the code applies it via `exec` in
`ReportGenerator.extractCitationsFromContent` and via `match` in
`calculateQualityMetrics`: non-overlapping matches scanned left to right. -/

/-- One regex match of `\[Source (\d+)\]`: the captured numeric label, the
match's character index in the text, and the match's length. -/
structure Marker where
  label : Nat
  idx : Nat
  len : Nat
deriving DecidableEq, Repr

/-- Try to match `\[Source (\d+)\]` at the head of `cs`; on success return
the parsed label and the match length (`"[Source "` is 8 characters, then
the digits, then `"]"`). -/
def matchMarkerAt (cs : List Char) : Option (Nat × Nat) :=
  match stripHead ("[Source ").data cs with
  | none => none
  | some rest =>
    let p := takeRunList Char.isDigit rest
    if p.1.isEmpty then none
    else
      match p.2 with
      | ']' :: _ => some (digitsVal p.1, 9 + p.1.length)
      | _ => none

/-- Left-to-right scan: at each position try the marker pattern; a match is
consumed whole, a non-match advances one character (regex `g`-flag
semantics). `fuel` bounds the recursion by the text length. -/
def scanMarkersAux : Nat → List Char → Nat → List Marker
  | 0, _, _ => []
  | fuel + 1, cs, pos =>
    match cs with
    | [] => []
    | _ :: rest =>
      match matchMarkerAt cs with
      | some pr => ⟨pr.1, pos, pr.2⟩ :: scanMarkersAux fuel (cs.drop pr.2) (pos + pr.2)
      | none => scanMarkersAux fuel rest (pos + 1)

/-- All `\[Source (\d+)\]` matches of a text, in order of occurrence. -/
def scanMarkers (cs : List Char) : List Marker :=
  scanMarkersAux (cs.length + 1) cs 0

/-! ## The scorer's pattern matchers (`ContentScorer`)

Each JS regex of `calculateExtractability` / `calculateIndianContext` /
`has*` becomes a matcher `Bool → List Char → Option (Bool × List Char)`:
given whether the previous character (if any) is a word character (for
`\b`), try a match at the head; on success return whether the match's last
character is a word character and the remaining text. A generic counter
replays the `g`-flag exec loop. -/

/-- Regex word character (`\w`): ASCII alphanumeric or underscore; used by
the `\b` assertions. -/
def isWordChar (c : Char) : Bool := c.isAlphanum || c = '_'

/-- Whether the head of a character list is a word character (end of text
counts as a non-word position for `\b`). -/
def headIsWord : List Char → Bool
  | [] => false
  | c :: _ => isWordChar c

/-- Case-insensitive character equality (the `i` regex flag,
`String.prototype.includes` after `toLowerCase`). -/
def ciEq (a b : Char) : Bool := a.toLower = b.toLower

/-- Case-insensitive literal match at the head: the remaining text on
success. -/
def ciStripHead : List Char → List Char → Option (List Char)
  | [], cs => some cs
  | p :: ps, c :: cs => if ciEq c p then ciStripHead ps cs else none
  | _ :: _, [] => none

/-- Count the non-overlapping matches of `m`, scanning left to right; a
match is consumed whole, a failed position advances one character, and the
word-character status of the previous character is threaded for `\b`. -/
def countMatchesAux (m : Bool → List Char → Option (Bool × List Char)) :
    Nat → Bool → List Char → Nat
  | 0, _, _ => 0
  | fuel + 1, prevW, cs =>
    match cs with
    | [] => 0
    | c :: rest =>
      match m prevW cs with
      | some pr => 1 + countMatchesAux m fuel pr.1 pr.2
      | none => countMatchesAux m fuel (isWordChar c) rest

/-- Matches of `m` in a whole string (start-of-text is a non-word
position). -/
def countMatches (m : Bool → List Char → Option (Bool × List Char)) (s : String) : Nat :=
  countMatchesAux m (s.data.length + 1) false s.data

/-- `/\d+(?:\.\d+)?%/`: digits, an optional fraction, then a percent
sign. -/
def matchPercentAt (_ : Bool) (cs : List Char) : Option (Bool × List Char) :=
  let d := takeRunList Char.isDigit cs
  if d.1.isEmpty then none
  else
    match d.2 with
    | '.' :: r2 =>
      let f := takeRunList Char.isDigit r2
      if f.1.isEmpty then none
      else match f.2 with
        | '%' :: r4 => some (false, r4)
        | _ => none
    | '%' :: r4 => some (false, r4)
    | _ => none

/-- `/₹[\d,]+/`: the rupee sign then at least one digit or comma. -/
def matchInrAt (_ : Bool) (cs : List Char) : Option (Bool × List Char) :=
  match cs with
  | '₹' :: r =>
    let d := takeRunList (fun c => c.isDigit || c = ',') r
    if d.1.isEmpty then none else some (headIsWord d.1.reverse, d.2)
  | _ => none

/-- First case-insensitive literal of `ws` matching at the head of `cs`. -/
def ciAltAt (ws : List (List Char)) (cs : List Char) : Option (List Char) :=
  match ws with
  | [] => none
  | w :: rest =>
    match ciStripHead w cs with
    | some after => some after
    | none => ciAltAt rest cs

/-- `/\d+\s*(?:lakh|crore|million|billion)/i` (and its `lakh|crore`-only
variant in `hasStatistics`): digits, optional whitespace, a unit word. -/
def matchCurrencyWordAt (units : List (List Char)) (_ : Bool) (cs : List Char) :
    Option (Bool × List Char) :=
  let d := takeRunList Char.isDigit cs
  if d.1.isEmpty then none
  else
    let w := takeRunList Char.isWhitespace d.2
    match ciAltAt units w.2 with
    | some after => some (true, after)
    | none => none

/-- `/\b(?:19|20)\d{2}\b/`: a century prefix and two digits between word
boundaries. -/
def matchYearAt (prevW : Bool) (cs : List Char) : Option (Bool × List Char) :=
  if prevW then none
  else
    match cs with
    | a :: b :: c :: d :: rest =>
      if ((a = '1' ∧ b = '9') ∨ (a = '2' ∧ b = '0')) ∧ c.isDigit ∧ d.isDigit
          ∧ headIsWord rest = false then
        some (true, rest)
      else none
    | _ => none

/-- The `(?:,\d{3})*\b` tail of the grouped-number regex: consume comma
groups greedily, dropping trailing groups (regex backtracking) until the
word boundary holds; a boundary before a comma always holds, so the scan
fails only when the given position itself starts with a word character. -/
def numTail : Nat → List Char → Option (List Char)
  | 0, _ => none
  | _ + 1, [] => some []
  | fuel + 1, ',' :: r =>
    match r with
    | d1 :: d2 :: d3 :: rest =>
      if d1.isDigit ∧ d2.isDigit ∧ d3.isDigit then
        match numTail fuel rest with
        | some out => some out
        | none => some (',' :: r)
      else some (',' :: r)
    | _ => some (',' :: r)
  | _ + 1, c :: r => if isWordChar c then none else some (c :: r)

/-- `/\b\d{1,3}(?:,\d{3})*\b/`: one to three digits (a longer digit run
can never satisfy the trailing boundary, so the run length must be at most
three), then comma groups with backtracking. -/
def matchNumAt (prevW : Bool) (cs : List Char) : Option (Bool × List Char) :=
  if prevW then none
  else
    let d := takeRunList Char.isDigit cs
    if d.1.isEmpty || 3 < d.1.length then none
    else
      match numTail (d.2.length + 1) d.2 with
      | some out => some (true, out)
      | none => none

/-- `/"[^"]{20,}"/`: a quote, at least twenty non-quote characters, a
closing quote. -/
def matchQuoteAt (_ : Bool) (cs : List Char) : Option (Bool × List Char) :=
  match cs with
  | '"' :: r =>
    let d := takeRunList (fun c => c ≠ '"') r
    if d.1.length < 20 then none
    else match d.2 with
      | '"' :: r3 => some (false, r3)
      | _ => none
  | _ => none

/-- `/\b(word1|word2|…)\b/i`: one of the listed words between word
boundaries, case-insensitively. An alternative that matches literally but
fails the trailing boundary falls through to the next alternative. -/
def matchAltWordsAt (ws : List (List Char)) (prevW : Bool) (cs : List Char) :
    Option (Bool × List Char) :=
  if prevW then none
  else
    match ws with
    | [] => none
    | w :: rest =>
      match ciStripHead w cs with
      | some after =>
        if headIsWord after then matchAltWordsAt rest prevW cs
        else some (true, after)
      | none => matchAltWordsAt rest prevW cs

/-- The numeric-date regex of `hasDates` (one or two digits, a dash or
slash, one or two digits, a dash or slash, then two to four digits). -/
def matchDmyAt (_ : Bool) (cs : List Char) : Option (Bool × List Char) :=
  let d1 := takeRunList Char.isDigit cs
  if d1.1.isEmpty || 2 < d1.1.length then none
  else
    match d1.2 with
    | s1 :: r1 =>
      if s1 = '-' ∨ s1 = '/' then
        let d2 := takeRunList Char.isDigit r1
        if d2.1.isEmpty || 2 < d2.1.length then none
        else
          match d2.2 with
          | s2 :: r2 =>
            if s2 = '-' ∨ s2 = '/' then
              let d3 := takeRunList Char.isDigit r2
              if d3.1.length < 2 then none
              else some (true, d3.1.drop 4 ++ d3.2)
            else none
          | [] => none
      else none
    | [] => none

/-- `content.includes(pat)`: substring containment. -/
def strIncludes (content pat : String) : Bool :=
  let rec go : Nat → List Char → Bool
    | 0, _ => false
    | _ + 1, [] => (stripHead pat.data []).isSome
    | fuel + 1, c :: rest =>
      match stripHead pat.data (c :: rest) with
      | some _ => true
      | none => go fuel rest
  go (content.data.length + 1) content.data

/-- The dynamically built keyword regex of `calculateIndianContext`
(`new RegExp('\\b' + escaped + '\\b', 'gi')`): the escaped keyword is a
literal, so a match is a case-insensitive literal occurrence whose ends
are word boundaries (`\b` holds where word-character status changes). -/
def matchKeywordAt (kw : List Char) (prevW : Bool) (cs : List Char) :
    Option (Bool × List Char) :=
  match kw with
  | [] => none
  | k :: ks =>
    if prevW = isWordChar k then none
    else
      match ciStripHead (k :: ks) cs with
      | some after =>
        let lastW := isWordChar (ks.getLastD k)
        if headIsWord after = lastW then none else some (lastW, after)
      | none => none

/-- Occurrences of one keyword in the content (`content.match(regex)`). -/
def countKeywordOcc (kw : String) (content : String) : Nat :=
  countMatches (matchKeywordAt kw.data) content

/-- `ContentScorer.indianKeywords`. -/
def indianKeywords : List String :=
  ["india", "indian", "rupee", "inr", "₹", "lakh", "crore",
   "epfo", "esi", "pf", "provident fund", "gratuity",
   "labour code", "wage code", "osh code", "posh",
   "ministry of labour", "government of india",
   "mumbai", "delhi", "bangalore", "bengaluru", "chennai",
   "hyderabad", "pune", "kolkata", "ahmedabad"]

/-- The unit words of the extractability `currency_words` pattern. -/
def currencyUnits : List (List Char) :=
  [("lakh").data, ("crore").data, ("million").data, ("billion").data]

/-- The word alternation of the extractability `statistics` pattern. -/
def analysisWords : List (List Char) :=
  [("survey").data, ("study").data, ("report").data, ("data").data,
   ("statistics").data, ("analysis").data]

/-- The word alternation of the `hasStatistics` pattern (no `analysis`). -/
def statFlagWords : List (List Char) :=
  [("survey").data, ("study").data, ("report").data, ("data").data,
   ("statistics").data]

/-- The month-name alternation of `hasDates`. -/
def monthWords : List (List Char) :=
  [("Jan").data, ("Feb").data, ("Mar").data, ("Apr").data, ("May").data,
   ("Jun").data, ("Jul").data, ("Aug").data, ("Sep").data, ("Oct").data,
   ("Nov").data, ("Dec").data]

/-- `regex.test(content)`: at least one match. -/
def hasMatch (m : Bool → List Char → Option (Bool × List Char)) (s : String) : Bool :=
  countMatches m s != 0

/-- `ContentScorer.hasStatistics`. -/
def hasStatistics (content : String) : Bool :=
  hasMatch matchPercentAt content || hasMatch matchInrAt content
    || hasMatch (matchCurrencyWordAt [("lakh").data, ("crore").data]) content
    || hasMatch (matchAltWordsAt statFlagWords) content

/-- `ContentScorer.hasDates`. -/
def hasDates (content : String) : Bool :=
  hasMatch matchYearAt content || hasMatch (matchAltWordsAt monthWords) content
    || hasMatch matchDmyAt content

/-- `ContentScorer.hasNumbers`. -/
def hasNumbers (content : String) : Bool :=
  hasMatch matchNumAt content

/-! ## The content scorer (`ContentScorer`, src/src/reports/generator.ts) -/

/-- A raw candidate document, as collected (src/src/types/chat.ts,
`RawContentItem`; the unused `full_content` field is omitted). `Date`
fields are epoch-millisecond rationals. -/
structure RawContentItem where
  title : String
  url : String
  content : Option String
  snippet : Option String
  author : Option String
  published_at : Option ℚ
  categories : Option (List String)

/-- The four sub-scores (`ScoringComponents`). -/
structure ScoringComponents where
  domain_authority : ℝ
  indian_context : ℝ
  freshness : ℝ
  extractability : ℝ

/-- The scored document `ContentScorer.scoreContent` produces
(`Omit<ContentItem, 'id' | 'collected_at'>`). -/
structure ScoredContentItem where
  source : String
  source_url : String
  title : String
  url : String
  content_hash : String
  snippet : String
  full_content : String
  author : Option String
  published_at : ℚ
  categories : List String
  language : String
  domain_authority : ℝ
  indian_context_score : ℝ
  freshness_score : ℝ
  extractability_score : ℝ
  composite_score : ℝ
  has_statistics : Bool
  has_dates : Bool
  has_numbers : Bool
  word_count : Nat
  scraper_version : String
  processing_notes : String

/-- `ContentScorer.domainScores`: only the baseline entry. -/
def domainScores : List (String × ℝ) := [("default", 0.70)]

/-- `ContentScorer.extractDomain`: `new URL(url).hostname.toLowerCase()`,
`'unknown'` when parsing fails. WHATWG URL parsing is approximated by the
authority component between `"://"` and the next slash; the value is
irrelevant downstream because the authority table holds only the default
entry. -/
def extractDomain (url : String) : String :=
  match url.splitOn "://" with
  | _scheme :: host :: _ => (host.takeWhile (fun c => c ≠ '/')).toLower
  | _ => "unknown"

/-- `ContentScorer.calculateDomainAuthority`: table lookup with the
`default` fallback. -/
noncomputable def calculateDomainAuthority (domain : String) : ℝ :=
  (domainScores.lookup domain).getD ((domainScores.lookup "default").getD 0)

/-- `content.split(/\s+/).length` of `calculateIndianContext`. -/
def totalWordsOf (content : String) : Nat := (jsSplitWs content.data []).length

/-- The summed keyword match count of `calculateIndianContext`. -/
def indianWordCountOf (content : String) : Nat :=
  (indianKeywords.map (fun kw => countKeywordOcc kw content)).sum

/-- `ContentScorer.calculateIndianContext`: keyword density capped at 1,
plus fixed bonuses for high-value keywords, clamped to 1. -/
noncomputable def calculateIndianContext (content : String) : ℝ :=
  let totalWords := totalWordsOf content
  if totalWords = 0 then 0
  else
    let indianWordCount := indianWordCountOf content
    let keywordDensity : ℝ := min 1.0 ((indianWordCount : ℝ) / ((totalWords : ℝ) * 0.01))
    let score := keywordDensity
    let score := if strIncludes content "india" || strIncludes content "indian"
      then score + 0.2 else score
    let score := if strIncludes content "epfo" || strIncludes content "esi"
        || strIncludes content "pf" then score + 0.3 else score
    let score := if strIncludes content "labour code" || strIncludes content "wage code"
      then score + 0.2 else score
    let score := if strIncludes content "₹" || strIncludes content "lakh"
        || strIncludes content "crore" then score + 0.15 else score
    min 1.0 score

/-- `ContentScorer.calculateFreshness`: exponential decay with a 180-day
half-life, clamped to `[0.1, 1.0]`; `0.5` when the publish date is
missing. -/
noncomputable def calculateFreshness (now : ℚ) (published_at : Option ℚ) : ℝ :=
  match published_at with
  | none => 0.5
  | some t =>
    let ageInDays : ℝ := ((now : ℝ) - (t : ℝ)) / (1000 * 60 * 60 * 24)
    let halfLife : ℝ := 180
    let freshness : ℝ := (0.5 : ℝ) ^ (ageInDays / halfLife)
    max 0.1 (min 1.0 freshness)

/-- `ContentScorer.calculateExtractability`: base 0.3 plus fixed
increments per extractable-content pattern, capped at 1. -/
noncomputable def calculateExtractability (content : String) : ℝ :=
  let score : ℝ := 0.3
  let score := if 1 ≤ countMatches matchPercentAt content then score + 0.2 else score
  let score := if 1 ≤ countMatches matchInrAt content then score + 0.15 else score
  let score := if 1 ≤ countMatches (matchCurrencyWordAt currencyUnits) content
    then score + 0.15 else score
  let score := if 2 ≤ countMatches matchYearAt content then score + 0.1 else score
  let score := if 3 ≤ countMatches matchNumAt content then score + 0.1 else score
  let score := if 1 ≤ countMatches matchQuoteAt content then score + 0.05 else score
  let score := if 1 ≤ countMatches (matchAltWordsAt analysisWords) content
    then score + 0.1 else score
  min 1.0 score

/-- `ContentScorer.generateContentHash`: md5 of `title|url` (md5 itself is
an external, deterministic collaborator passed as a function). -/
def generateContentHash (md5 : String → String) (title url : String) : String :=
  md5 (title ++ "|" ++ url)

/-- `ContentScorer.getSourceUrl`. -/
def getSourceUrl (_source : String) : String :=
  "https://search-based-content.com"

/-- `ContentScorer.scoreContent`: the four sub-scores, the fixed-weight
composite, the feature flags and the assembled scored item. `now` is the
clock (`new Date()`), passed explicitly. -/
noncomputable def scoreContent (md5 : String → String) (now : ℚ)
    (item : RawContentItem) (source : String) :
    ScoredContentItem × ScoringComponents :=
  let domain := extractDomain item.url
  let content := (item.title ++ " " ++ (item.snippet.getD "") ++ " "
    ++ (item.content.getD "")).toLower
  let domain_authority := calculateDomainAuthority domain
  let indian_context := calculateIndianContext content
  let freshness := calculateFreshness now item.published_at
  let extractability := calculateExtractability content
  let composite_score := 0.4 * domain_authority + 0.3 * indian_context
    + 0.2 * freshness + 0.1 * extractability
  ({ source := source
     source_url := getSourceUrl source
     title := item.title
     url := item.url
     content_hash := generateContentHash md5 item.title item.url
     snippet := jsOrS item.snippet (createSnippet (jsOrS item.content item.title) 300)
     full_content := item.content.getD ""
     author := item.author
     published_at := item.published_at.getD now
     categories := item.categories.getD []
     language := "en"
     domain_authority := domain_authority
     indian_context_score := indian_context
     freshness_score := freshness
     extractability_score := extractability
     composite_score := composite_score
     has_statistics := hasStatistics content
     has_dates := hasDates content
     has_numbers := hasNumbers content
     word_count := countWords (jsOrS item.content (jsOrS item.snippet item.title))
     scraper_version := "1.0"
     processing_notes := "Scored on " ++ toString now },
   ⟨domain_authority, indian_context, freshness, extractability⟩)

/-! ## Stored documents and the source selector (`ReportGenerator`) -/

/-- A stored document row as the report generator reads it
(src/src/types/chat.ts `ContentItem`; stored numerics are rationals,
dates epoch-millisecond rationals; fields the generator never reads are
omitted). -/
structure ContentItem where
  id : String
  title : String
  url : String
  snippet : Option String
  full_content : Option String
  published_at : Option ℚ
  collected_at : ℚ
  composite_score : ℚ
deriving DecidableEq

/-- The descending-composite-score comparison the generator sorts with
(`(a, b) => Number(b.composite_score) - Number(a.composite_score)`). -/
def scoreGe (a b : ContentItem) : Prop := b.composite_score ≤ a.composite_score

instance : DecidableRel scoreGe := fun a b =>
  inferInstanceAs (Decidable (b.composite_score ≤ a.composite_score))

instance : IsTotal ContentItem scoreGe :=
  ⟨fun a b => (le_total b.composite_score a.composite_score).imp id id⟩

instance : IsTrans ContentItem scoreGe :=
  ⟨fun _ _ _ h1 h2 => le_trans h2 h1⟩

/-- The first-occurrence dedup of `findRelevantSources`
(`filter((source, index, self) => index === self.findIndex(s => s.id === source.id))`). -/
def dedupeById (seen : List String) : List ContentItem → List ContentItem
  | [] => []
  | d :: rest =>
    if d.id ∈ seen then dedupeById seen rest
    else d :: dedupeById (d.id :: seen) rest

/-- One day in epoch milliseconds. -/
def msPerDay : ℚ := 1000 * 60 * 60 * 24

/-- `ReportGenerator.findRelevantSources`. The store's two text searches
are external inputs: `direct` is `searchContentItems(topic, maxSources)`
(the SQL `LIMIT` bounds its length), `extra` the concatenation of the
keyword-expansion searches. The under-filled check, the dedup + sort +
truncate of the expansion, the recency filter (`cutoffDate` modelled as
`now` minus the window in milliseconds), the `> 0.3` quality floor and the
final descending sort follow the code. -/
def findRelevantSources (direct extra : List ContentItem) (maxSources : Nat)
    (now timeRangeDays : ℚ) : List ContentItem :=
  let sources :=
    if 2 * direct.length < maxSources then
      (List.insertionSort scoreGe (dedupeById [] (direct ++ extra))).take maxSources
    else direct
  let cutoffDate := now - timeRangeDays * msPerDay
  let sources := sources.filter
    (fun s => decide (cutoffDate < s.published_at.getD s.collected_at))
  let sources := sources.filter (fun s => decide ((0.3 : ℚ) < s.composite_score))
  List.insertionSort scoreGe sources

/-! ## Citation extraction (`ReportGenerator.extractCitationsFromContent`) -/

/-- One extracted citation (the section partition of the same function is
rendering-only and out of the modelled scope). -/
structure CitationEntry where
  number : Nat
  sourceId : String
  text : String
  context : String

/-- The ~100-character context window around a marker occurrence:
`content.substring(max(0, idx - 50), min(length, idx + len + 50))` with
whitespace collapsed and trimmed. -/
def contextAt (content : List Char) (idx mlen : Nat) : String :=
  let start := idx - 50
  let stop := min content.length (idx + mlen + 50)
  collapseWs (String.mk ((content.drop start).take (stop - start)))

/-- One loop iteration of the citation-extraction `while`: an in-range
label (`sourceNumber >= 0 && sourceNumber < sources.length`) appends a
citation numbered `citations.length + 1`; an out-of-range label is
skipped. -/
def citeStep (content : List Char) (sources : List ContentItem)
    (acc : List CitationEntry) (m : Marker) : List CitationEntry :=
  let sourceNumber : ℤ := (m.label : ℤ) - 1
  if 0 ≤ sourceNumber ∧ sourceNumber < sources.length then
    match sources[sourceNumber.toNat]? with
    | some source =>
      acc ++ [⟨acc.length + 1, source.id, source.title, contextAt content m.idx m.len⟩]
    | none => acc
  else acc

/-- All citations of a generated report body against the index-aligned
source list. -/
def extractCitationsFromContent (content : String) (sources : List ContentItem) :
    List CitationEntry :=
  (scanMarkers content.data).foldl (citeStep content.data sources) []

/-- Whether a marker's numeric label resolves to a source index
(`sourceNumber >= 0 && sourceNumber < sources.length`). -/
def markerInRange (label len : Nat) : Bool :=
  decide (0 ≤ (label : ℤ) - 1 ∧ (label : ℤ) - 1 < (len : ℤ))

/-! ## Confidence (`ReportGenerator.calculateQualityMetrics`) -/

/-- The report-level confidence score: base 0.5 plus source-quality,
source-count, length and citation-density terms, clamped to
`[0.1, 1.0]`. -/
def calculateQualityMetrics (sources : List ContentItem) (content : String) : ℚ :=
  let confidence : ℚ := 0.5
  let avgSourceScore := (sources.map (fun s => s.composite_score)).sum / sources.length
  let confidence := confidence + avgSourceScore * 0.3
  let sourceCountFactor : ℚ := min 1.0 ((sources.length : ℚ) / 10)
  let confidence := confidence + sourceCountFactor * 0.2
  let wordCount := countWords content
  let lengthFactor : ℚ := min 1.0 ((wordCount : ℚ) / 1000)
  let confidence := confidence + lengthFactor * 0.1
  let citations := (scanMarkers content.data).length
  let citationDensity : ℚ := (citations : ℚ) / max 1 ((wordCount : ℚ) / 100)
  let citationFactor : ℚ := min 1.0 (citationDensity / 5)
  let confidence := confidence + citationFactor * 0.1
  min 1.0 (max 0.1 confidence)

/-! ## Report assembly and persistence (`ReportGenerator.generateReport`,
`Database.insertReport` / `Database.insertCitations`, src/unnamed/part_004) -/

/-- The report metadata `generateReport` assembles and persists (the
rendering fields `html_content` / `pdf_path` are out of the modelled
scope, see spec §1). -/
structure ReportData where
  topic : String
  topic_hash : String
  title : String
  content : String
  executive_summary : String
  methodology : String
  confidence_score : ℚ
  source_count : Nat
  citation_count : Nat
  word_count : Nat
  generation_time_ms : ℚ
  source_ids : List String

/-- `generateTopicHash`: md5 of the lowercased topic. -/
def generateTopicHash (md5 : String → String) (topic : String) : String :=
  md5 topic.toLower

/-- `generateReportTitle`: capitalised topic plus a year-stamped suffix. -/
def generateReportTitle (topic : String) (year : Nat) : String :=
  (match topic.data with
   | [] => ""
   | c :: cs => String.mk (c.toUpper :: cs))
    ++ " - Indian HR Market Analysis " ++ toString year

/-- `generateMethodology`: the templated methodology string. -/
def generateMethodology (sourceCount : Nat) (timeRangeDays : ℚ) (todayStr : String) :
    String :=
  "This report was generated through automated analysis of "
    ++ toString sourceCount
    ++ " recent sources from the Indian HR market, covering the "
    ++ toString timeRangeDays
    ++ "-day period ending " ++ todayStr
    ++ ". Sources were selected based on relevance, authority, and recency, "
    ++ "then analyzed using AI to extract key insights and trends."

/-- Steps 3–6 of `generateReport`: extract citations, compute quality
metrics and assemble the report record (`reportData`), given the text the
generation backend returned. -/
def buildReportData (md5 : String → String) (topic : String) (timeRangeDays : ℚ)
    (sources : List ContentItem) (reportContent executiveSummary : String)
    (year : Nat) (todayStr : String) (elapsedMs : ℚ) :
    ReportData × List CitationEntry :=
  let citations := extractCitationsFromContent reportContent sources
  ({ topic := topic
     topic_hash := generateTopicHash md5 topic
     title := generateReportTitle topic year
     content := reportContent
     executive_summary := executiveSummary
     methodology := generateMethodology sources.length timeRangeDays todayStr
     confidence_score := calculateQualityMetrics sources reportContent
     source_count := sources.length
     citation_count := citations.length
     word_count := countWords reportContent
     generation_time_ms := elapsedMs
     source_ids := sources.map (fun s => s.id) }, citations)

/-- A persisted citation row (`Database.insertCitations`). -/
structure CitationRow where
  report_id : Nat
  content_item_id : String
  citation_number : Nat
  quoted_text : String
  context : String

/-- The durable store the generator writes reports and citations to. -/
structure Store where
  reports : List ReportData
  citationRows : List CitationRow

/-- `Database.insertReport`: append the row; the returned id is modelled
as the row's index. -/
def insertReport (store : Store) (r : ReportData) : Store × Nat :=
  ({ store with reports := store.reports ++ [r] }, store.reports.length)

/-- `Database.insertCitations`: batch append (the empty batch writes
nothing). -/
def insertCitations (store : Store) (rows : List CitationRow) : Store :=
  if rows.isEmpty then store else { store with citationRows := store.citationRows ++ rows }

/-- The result of `generateReport`. -/
structure GenerationResult where
  success : Bool
  report : Option ReportData
  error : Option String

/-- The external collaborators of one `generateReport` call: md5, the
clock, the two text-search results feeding `findRelevantSources`, the
generation backend's report body and executive summary, and the values the
assembly templates read off the clock. -/
structure GenEnv where
  md5 : String → String
  now : ℚ
  year : Nat
  todayStr : String
  elapsedMs : ℚ
  direct : List ContentItem
  extra : List ContentItem
  generatedContent : String
  executiveSummary : String

/-- `ReportGenerator.generateReport`: select sources, fail fast with the
no-relevant-sources error when the selection is empty (before any
persistence), otherwise assemble the report, persist it, then persist the
citation batch (PDF rendering, step 9, is out of the modelled scope and
cannot affect the stored report on failure). -/
def generateReport (gen : GenEnv) (topic : String) (maxSources : Nat)
    (timeRangeDays : ℚ) (store : Store) : GenerationResult × Store :=
  let sources := findRelevantSources gen.direct gen.extra maxSources gen.now timeRangeDays
  if sources.length = 0 then
    ({ success := false, report := none,
       error := some ("No relevant sources found for topic: " ++ topic) }, store)
  else
    let rd := buildReportData gen.md5 topic timeRangeDays sources
      gen.generatedContent gen.executiveSummary gen.year gen.todayStr gen.elapsedMs
    let ins := insertReport store rd.1
    let citationRecords := rd.2.map (fun c =>
      ({ report_id := ins.2, content_item_id := c.sourceId,
         citation_number := c.number, quoted_text := c.text,
         context := c.context } : CitationRow))
    let store2 := if 0 < citationRecords.length then insertCitations ins.1 citationRecords
      else ins.1
    ({ success := true, report := some rd.1, error := none }, store2)

/-! ## The content-items upsert (`Database.insertContentItem`) -/

/-- A stored `content_items` row: the scored item plus the generated id
and the collection timestamp. -/
structure StoredRow where
  id : String
  data : ScoredContentItem
  collected_at : ℚ

/-- `Database.insertContentItem`: `INSERT … ON CONFLICT (url) DO UPDATE
SET full_content = EXCLUDED.full_content, composite_score =
EXCLUDED.composite_score, collected_at = now()`. The store is the row
list; a conflicting url updates the existing row in place, otherwise the
row is appended with a fresh id. -/
def insertContentItem (store : List StoredRow) (newId : String)
    (item : ScoredContentItem) (now : ℚ) : List StoredRow :=
  if store.any (fun r => r.data.url == item.url) then
    store.map (fun r =>
      if r.data.url == item.url then
        { r with
          data := { r.data with
                    full_content := item.full_content
                    composite_score := item.composite_score }
          collected_at := now }
      else r)
  else store ++ [⟨newId, item, now⟩]

/-! ## Concrete sample inputs (for witness instantiations) -/

/-- A sample stored document. -/
def demoDoc : ContentItem :=
  { id := "d1", title := "Attrition trends", url := "https://example.com/a",
    snippet := none, full_content := none, published_at := some 1000,
    collected_at := 0, composite_score := 0.8 }

/-- A sample generation environment with empty search results. -/
def demoEnv : GenEnv :=
  { md5 := fun s => s, now := 0, year := 2025, todayStr := "2025-01-01",
    elapsedMs := 10, direct := [], extra := [],
    generatedContent := "body", executiveSummary := "summary" }

/-- The empty store. -/
def emptyStore : Store := { reports := [], citationRows := [] }

/-! ## Helper lemmas -/

/-- A conditional bonus keeps a lower bound when the bonus is
nonnegative. -/
theorem le_ite_add {b : Prop} [Decidable b] {x a c : ℝ} (h : a ≤ x) (hc : 0 ≤ c) :
    a ≤ if b then x + c else x := by
  split_ifs with hb
  · linarith
  · exact h

/-- The authority table holds only the default entry, so every domain gets
the baseline 0.70. -/
theorem domainAuthority_eq (domain : String) : calculateDomainAuthority domain = 0.70 := by
  unfold calculateDomainAuthority domainScores
  by_cases h : domain = "default"
  · simp [List.lookup, h]
  · have hb : (domain == "default") = false := beq_eq_false_iff_ne.mpr h
    simp [List.lookup, hb]

/-- The topical-context sub-score lies in `[0, 1]`. -/
theorem indianContext_bounds (content : String) :
    0 ≤ calculateIndianContext content ∧ calculateIndianContext content ≤ 1 := by
  unfold calculateIndianContext
  dsimp only
  by_cases htw : totalWordsOf content = 0
  · rw [if_pos htw]
    norm_num
  · rw [if_neg htw]
    constructor
    · refine le_min (by norm_num) ?_
      refine le_ite_add (le_ite_add (le_ite_add (le_ite_add ?_ (by norm_num))
        (by norm_num)) (by norm_num)) (by norm_num)
      refine le_min (by norm_num) ?_
      exact div_nonneg (Nat.cast_nonneg _) (mul_nonneg (Nat.cast_nonneg _) (by norm_num))
    · exact (min_le_left _ _).trans (by norm_num)

/-- The extractability sub-score lies in `[0.3, 1]`. -/
theorem extractability_bounds (content : String) :
    0.3 ≤ calculateExtractability content ∧ calculateExtractability content ≤ 1 := by
  unfold calculateExtractability
  dsimp only
  constructor
  · refine le_min (by norm_num) ?_
    refine le_ite_add (le_ite_add (le_ite_add (le_ite_add (le_ite_add (le_ite_add
      (le_ite_add ?_ (by norm_num)) (by norm_num)) (by norm_num)) (by norm_num))
      (by norm_num)) (by norm_num)) (by norm_num)
    norm_num
  · exact (min_le_left _ _).trans (by norm_num)

/-- The freshness sub-score lies in `[0.1, 1]` for every publish date and
for the missing-date default. -/
theorem freshness_bounds (now : ℚ) (p : Option ℚ) :
    0.1 ≤ calculateFreshness now p ∧ calculateFreshness now p ≤ 1 := by
  cases p with
  | none =>
    constructor <;> norm_num [calculateFreshness]
  | some t =>
    unfold calculateFreshness
    dsimp only
    exact ⟨le_max_left _ _, max_le (by norm_num) ((min_le_left _ _).trans (by norm_num))⟩

/-! ## The claims -/

/-- C1: for every raw candidate document scored by the scorer, the
composite score equals exactly
`0.4·domain_authority + 0.3·topical_context + 0.2·freshness +
0.1·extractability` with the weights fixed in the function itself, each
sub-score lies in `[0, 1]` (freshness in `[0.1, 1]`), and the composite
score lies in `[0, 1]`. -/
theorem C1_composite_weighting (md5 : String → String) (now : ℚ)
    (item : RawContentItem) (source : String) :
    let r := scoreContent md5 now item source
    r.1.composite_score
        = 0.4 * r.2.domain_authority + 0.3 * r.2.indian_context
          + 0.2 * r.2.freshness + 0.1 * r.2.extractability
      ∧ (0 ≤ r.2.domain_authority ∧ r.2.domain_authority ≤ 1)
      ∧ (0 ≤ r.2.indian_context ∧ r.2.indian_context ≤ 1)
      ∧ (0.1 ≤ r.2.freshness ∧ r.2.freshness ≤ 1)
      ∧ (0 ≤ r.2.extractability ∧ r.2.extractability ≤ 1)
      ∧ 0 ≤ r.1.composite_score ∧ r.1.composite_score ≤ 1 := by
  dsimp only [scoreContent]
  have hda := domainAuthority_eq (extractDomain item.url)
  obtain ⟨hic0, hic1⟩ := indianContext_bounds
    ((item.title ++ " " ++ (item.snippet.getD "") ++ " " ++ (item.content.getD "")).toLower)
  obtain ⟨hf0, hf1⟩ := freshness_bounds now item.published_at
  obtain ⟨he0, he1⟩ := extractability_bounds
    ((item.title ++ " " ++ (item.snippet.getD "") ++ " " ++ (item.content.getD "")).toLower)
  refine ⟨rfl, ⟨by rw [hda]; norm_num, by rw [hda]; norm_num⟩,
    ⟨hic0, hic1⟩, ⟨hf0, hf1⟩, ⟨by linarith, he1⟩, by linarith, by linarith⟩

/-- C5: with a publish date the freshness sub-score is
`0.5 ^ (age_days / 180)` clamped to `[0.1, 1.0]`; a missing date scores
exactly 0.5; freshness is monotonically non-increasing in age (an earlier
publish date never scores higher than a later one); and a document
published at the current instant (age 0) scores exactly 1. -/
theorem C5_freshness_decay :
    (∀ now : ℚ, calculateFreshness now none = 0.5)
    ∧ (∀ t : ℚ, calculateFreshness t (some t) = 1)
    ∧ (∀ (now t1 t2 : ℚ), t1 ≤ t2 →
        calculateFreshness now (some t1) ≤ calculateFreshness now (some t2))
    ∧ ∀ (now t : ℚ), calculateFreshness now (some t)
        = max 0.1 (min 1.0
            ((0.5 : ℝ) ^ ((((now : ℝ) - (t : ℝ)) / (1000 * 60 * 60 * 24)) / 180))) := by
  refine ⟨fun _ => rfl, fun t => ?_, fun now t1 t2 h => ?_, fun _ _ => rfl⟩
  · unfold calculateFreshness
    dsimp only
    rw [sub_self, zero_div, zero_div, Real.rpow_zero]
    norm_num
  · unfold calculateFreshness
    dsimp only
    refine max_le_max le_rfl (min_le_min le_rfl ?_)
    refine Real.rpow_le_rpow_of_exponent_ge (by norm_num) (by norm_num) ?_
    have h' : ((t1 : ℝ)) ≤ (t2 : ℝ) := by exact_mod_cast h
    gcongr

/-- C9: scoring is pure and total: the same raw document with the same
source label (and the same clock reading, the clock being an explicit
input of the embedding) scores to identical sub-scores, composite score
and scored item; and a document missing every optional field is scored
without failure, the absent fields taking the code's defaults (neutral
freshness 0.5, empty body, no author, the collection instant as publish
date, no categories, a snippet built from the title, the title's word
count). -/
theorem C9_scoring_pure :
    (∀ (md5 : String → String) (now : ℚ) (item : RawContentItem) (source : String),
        scoreContent md5 now item source = scoreContent md5 now item source)
    ∧ ∀ (md5 : String → String) (now : ℚ) (title url source : String),
        let item : RawContentItem :=
          { title := title, url := url, content := none, snippet := none,
            author := none, published_at := none, categories := none }
        let r := scoreContent md5 now item source
        r.2.freshness = 0.5
          ∧ r.1.full_content = ""
          ∧ r.1.author = none
          ∧ r.1.published_at = now
          ∧ r.1.categories = []
          ∧ r.1.snippet = createSnippet title 300
          ∧ r.1.word_count = countWords title := by
  exact ⟨fun _ _ _ _ => rfl,
    fun md5 now title url source => ⟨rfl, rfl, rfl, rfl, rfl, rfl, rfl⟩⟩

/-- C10: the domain-authority table holds only the default entry, so every
domain — known, unknown or unparseable — scores exactly 0.70, and every
composite score the scorer produces lies in `[0.33, 0.88]`. -/
theorem C10_domain_authority_default :
    (∀ domain : String, calculateDomainAuthority domain = 0.70)
    ∧ ∀ (md5 : String → String) (now : ℚ) (item : RawContentItem) (source : String),
        0.33 ≤ (scoreContent md5 now item source).1.composite_score
          ∧ (scoreContent md5 now item source).1.composite_score ≤ 0.88 := by
  refine ⟨domainAuthority_eq, fun md5 now item source => ?_⟩
  dsimp only [scoreContent]
  have hda := domainAuthority_eq (extractDomain item.url)
  obtain ⟨hic0, hic1⟩ := indianContext_bounds
    ((item.title ++ " " ++ (item.snippet.getD "") ++ " " ++ (item.content.getD "")).toLower)
  obtain ⟨hf0, hf1⟩ := freshness_bounds now item.published_at
  obtain ⟨he0, he1⟩ := extractability_bounds
    ((item.title ++ " " ++ (item.snippet.getD "") ++ " " ++ (item.content.getD "")).toLower)
  constructor <;> linarith

/-- C2: the source selector returns at most `maxSources` documents (the
direct search obeys the store's `LIMIT maxSources` contract, the
expansion branch truncates explicitly), sorted by composite score
descending, every one with composite score strictly above 0.3 and with
publish date (collection date when absent) strictly inside the recency
window. -/
theorem C2_source_selector (direct extra : List ContentItem) (maxSources : Nat)
    (now timeRangeDays : ℚ) (hdirect : direct.length ≤ maxSources) :
    (findRelevantSources direct extra maxSources now timeRangeDays).length ≤ maxSources
    ∧ List.Sorted scoreGe (findRelevantSources direct extra maxSources now timeRangeDays)
    ∧ ∀ s ∈ findRelevantSources direct extra maxSources now timeRangeDays,
        0.3 < s.composite_score
        ∧ now - timeRangeDays * msPerDay < s.published_at.getD s.collected_at := by
  unfold findRelevantSources
  dsimp only
  refine ⟨?_, List.sorted_insertionSort scoreGe _, ?_⟩
  · rw [(List.perm_insertionSort scoreGe _).length_eq]
    refine le_trans (List.length_filter_le _ _)
      (le_trans (List.length_filter_le _ _) ?_)
    split
    · exact List.length_take_le _ _
    · exact hdirect
  · intro s hs
    have hs2 := (List.perm_insertionSort scoreGe _).mem_iff.mp hs
    have hq := List.of_mem_filter hs2
    have hs1 := List.mem_of_mem_filter hs2
    have hp := List.of_mem_filter hs1
    exact ⟨of_decide_eq_true hq, of_decide_eq_true hp⟩

/-- C2 witness: a concrete one-document pool passes the selector's
contract. -/
theorem C2_source_selector_witness :
    ([demoDoc].length ≤ 15)
    ∧ ((findRelevantSources [demoDoc] [] 15 500 30).length ≤ 15
       ∧ List.Sorted scoreGe (findRelevantSources [demoDoc] [] 15 500 30)
       ∧ ∀ s ∈ findRelevantSources [demoDoc] [] 15 500 30,
           0.3 < s.composite_score
           ∧ 500 - 30 * msPerDay < s.published_at.getD s.collected_at) :=
  ⟨by simp, C2_source_selector [demoDoc] [] 15 500 30 (by simp)⟩

/-- C4: the report confidence equals the base-0.5 formula with the
source-quality, source-count, length and citation-density terms, the sum
clamped to `[0.1, 1.0]`, and the result always lies in `[0.1, 1.0]`. -/
theorem C4_confidence_formula (sources : List ContentItem) (content : String)
    (_h : sources ≠ []) :
    calculateQualityMetrics sources content
      = min 1.0 (max 0.1
          (0.5 + 0.3 * ((sources.map (fun s => s.composite_score)).sum / sources.length)
            + 0.2 * min 1.0 ((sources.length : ℚ) / 10)
            + 0.1 * min 1.0 ((countWords content : ℚ) / 1000)
            + 0.1 * min 1.0
                ((((scanMarkers content.data).length : ℚ)
                    / max 1 ((countWords content : ℚ) / 100)) / 5)))
    ∧ 0.1 ≤ calculateQualityMetrics sources content
    ∧ calculateQualityMetrics sources content ≤ 1 := by
  unfold calculateQualityMetrics
  dsimp only
  refine ⟨?_, ?_, ?_⟩
  · congr 2
    ring
  · exact le_min (by norm_num) (le_max_left _ _)
  · exact (min_le_left _ _).trans (by norm_num)

/-- C4 witness: a concrete one-source report stays inside the clamp. -/
theorem C4_confidence_formula_witness :
    ([demoDoc] ≠ ([] : List ContentItem))
    ∧ 0.1 ≤ calculateQualityMetrics [demoDoc] "Growth [Source 1] report"
    ∧ calculateQualityMetrics [demoDoc] "Growth [Source 1] report" ≤ 1 :=
  ⟨by simp, (C4_confidence_formula [demoDoc] "Growth [Source 1] report" (by simp)).2⟩

/-- C6: when the source selector returns the empty set, `generateReport`
returns a failure result carrying the no-relevant-sources message instead
of throwing, produces no report, and leaves the store untouched — the
emptiness check precedes every persistence call. -/
theorem C6_no_sources_failure (gen : GenEnv) (topic : String) (maxSources : Nat)
    (timeRangeDays : ℚ) (store : Store)
    (h : findRelevantSources gen.direct gen.extra maxSources gen.now timeRangeDays = []) :
    (generateReport gen topic maxSources timeRangeDays store).1.success = false
    ∧ (generateReport gen topic maxSources timeRangeDays store).1.error
        = some ("No relevant sources found for topic: " ++ topic)
    ∧ (generateReport gen topic maxSources timeRangeDays store).1.report = none
    ∧ (generateReport gen topic maxSources timeRangeDays store).2 = store := by
  unfold generateReport
  rw [h]
  simp

/-- C6 witness: a concrete empty pool yields the failure result and an
unchanged store. -/
theorem C6_no_sources_failure_witness :
    (findRelevantSources demoEnv.direct demoEnv.extra 15 demoEnv.now 30 = [])
    ∧ ((generateReport demoEnv "attrition in India" 15 30 emptyStore).1.success = false
       ∧ (generateReport demoEnv "attrition in India" 15 30 emptyStore).1.error
           = some ("No relevant sources found for topic: " ++ "attrition in India")
       ∧ (generateReport demoEnv "attrition in India" 15 30 emptyStore).1.report = none
       ∧ (generateReport demoEnv "attrition in India" 15 30 emptyStore).2 = emptyStore) :=
  ⟨rfl, C6_no_sources_failure demoEnv "attrition in India" 15 30 emptyStore rfl⟩

/-- The upsert's conflict update rewrites body, score and collection time
but never a row's url, so url counts are preserved. -/
theorem countP_url_map_update (l : List StoredRow) (b : ScoredContentItem) (n2 : ℚ)
    (u : String) :
    (l.map (fun r =>
        if r.data.url == b.url then
          { r with
            data := { r.data with
                      full_content := b.full_content
                      composite_score := b.composite_score }
            collected_at := n2 }
        else r)).countP (fun r => r.data.url == u)
      = l.countP (fun r => r.data.url == u) := by
  rw [List.countP_map]
  refine List.countP_congr (fun r _ => ?_)
  by_cases hr : (r.data.url == b.url) = true <;> simp [Function.comp, hr]

/-- C8: the content hash is a deterministic function of (title, url) — two
raw documents agreeing on both always hash identically — and upserting two
same-url documents stores exactly one row: on a fresh url the pair of
inserts leaves exactly one row with that url, and from the empty store the
second insert updates the first row's full body, composite score and
collection timestamp in place instead of duplicating it. -/
theorem C8_dedup_hash_upsert :
    (∀ (md5 : String → String) (now1 now2 : ℚ) (i1 i2 : RawContentItem) (s1 s2 : String),
        i1.title = i2.title → i1.url = i2.url →
        (scoreContent md5 now1 i1 s1).1.content_hash
          = (scoreContent md5 now2 i2 s2).1.content_hash)
    ∧ (∀ (store : List StoredRow) (id1 id2 : String) (a b : ScoredContentItem)
          (n1 n2 : ℚ), a.url = b.url →
        store.countP (fun r => r.data.url == a.url) = 0 →
        (insertContentItem (insertContentItem store id1 a n1) id2 b n2).countP
          (fun r => r.data.url == a.url) = 1)
    ∧ ∀ (id1 id2 : String) (a b : ScoredContentItem) (n1 n2 : ℚ),
        a.url = b.url →
        insertContentItem (insertContentItem [] id1 a n1) id2 b n2
          = [⟨id1,
              { a with
                full_content := b.full_content
                composite_score := b.composite_score }, n2⟩] := by
  refine ⟨?_, ?_, ?_⟩
  · intro md5 now1 now2 i1 i2 s1 s2 ht hu
    dsimp only [scoreContent, generateContentHash]
    rw [ht, hu]
  · intro store id1 id2 a b n1 n2 hurl hcount
    have hany : store.any (fun r => r.data.url == a.url) = false := by
      rw [List.any_eq_false]
      exact List.countP_eq_zero.mp hcount
    have h1 : insertContentItem store id1 a n1 = store ++ [⟨id1, a, n1⟩] := by
      unfold insertContentItem
      rw [hany]
      simp
    have hmem : (store ++ [⟨id1, a, n1⟩] : List StoredRow).any
        (fun r => r.data.url == b.url) = true := by
      rw [List.any_eq_true]
      exact ⟨⟨id1, a, n1⟩, by simp, by simp [hurl]⟩
    rw [h1]
    unfold insertContentItem
    rw [hmem]
    simp only [if_true]
    rw [countP_url_map_update]
    rw [List.countP_append, hcount]
    simp
  · intro id1 id2 a b n1 n2 hurl
    have h1 : insertContentItem [] id1 a n1 = [⟨id1, a, n1⟩] := by
      unfold insertContentItem
      simp
    rw [h1]
    unfold insertContentItem
    have hmem : ([⟨id1, a, n1⟩] : List StoredRow).any
        (fun r => r.data.url == b.url) = true := by simp [hurl]
    rw [hmem]
    simp [hurl]

/-- One extraction step either skips the marker or appends one citation,
numbered by the running citation count, for a document of the source
list. -/
theorem citeStep_eq_or_append (content : List Char) (sources : List ContentItem)
    (acc : List CitationEntry) (m : Marker) :
    citeStep content sources acc m = acc
    ∨ ∃ s ∈ sources, citeStep content sources acc m
        = acc ++ [⟨acc.length + 1, s.id, s.title, contextAt content m.idx m.len⟩] := by
  unfold citeStep
  dsimp only
  split
  · rename_i hc
    have hlt : ((m.label : ℤ) - 1).toNat < sources.length := by omega
    rw [List.getElem?_eq_getElem hlt]
    exact Or.inr ⟨sources[((m.label : ℤ) - 1).toNat], List.getElem_mem hlt, rfl⟩
  · exact Or.inl rfl

/-- One extraction step grows the citation list by exactly one entry when
the label is in range and not at all otherwise. -/
theorem citeStep_length (content : List Char) (sources : List ContentItem)
    (acc : List CitationEntry) (m : Marker) :
    (citeStep content sources acc m).length
      = acc.length + (if markerInRange m.label sources.length = true then 1 else 0) := by
  unfold citeStep markerInRange
  dsimp only
  split
  · rename_i hc
    have hlt : ((m.label : ℤ) - 1).toNat < sources.length := by omega
    rw [List.getElem?_eq_getElem hlt]
    simp [hc]
  · rename_i hc
    simp [hc]
    omega

/-- The extraction fold produces one citation per in-range marker. -/
theorem foldl_citeStep_length (content : List Char) (sources : List ContentItem) :
    ∀ (ms : List Marker) (acc : List CitationEntry),
      (ms.foldl (citeStep content sources) acc).length
        = acc.length + ms.countP (fun m => markerInRange m.label sources.length) := by
  intro ms
  induction ms with
  | nil => intro acc; simp
  | cons m ms ih =>
    intro acc
    rw [List.foldl_cons, ih, List.countP_cons, citeStep_length]
    by_cases hm : markerInRange m.label sources.length = true
    · simp [hm]
      omega
    · simp [hm]

/-- The extraction fold assigns the contiguous sequence numbers
`1..length` in order of occurrence. -/
theorem foldl_citeStep_numbers (content : List Char) (sources : List ContentItem) :
    ∀ (ms : List Marker) (acc : List CitationEntry),
      acc.map (fun c => c.number) = List.range' 1 acc.length →
      (ms.foldl (citeStep content sources) acc).map (fun c => c.number)
        = List.range' 1 (ms.foldl (citeStep content sources) acc).length := by
  intro ms
  induction ms with
  | nil => intro acc h; simpa using h
  | cons m ms ih =>
    intro acc h
    rw [List.foldl_cons]
    refine ih _ ?_
    rcases citeStep_eq_or_append content sources acc m with hc | ⟨s, _hs, hc⟩
    · rw [hc]
      exact h
    · rw [hc, List.map_append, h, List.length_append]
      have h2 : List.range' 1 (acc.length + 1) = List.range' 1 acc.length ++ [acc.length + 1] := by
        have h3 := @List.range'_concat 1 1 acc.length
        simpa [Nat.add_comm] using h3
      simpa using h2.symm

/-- Every citation the extraction fold produces references a document of
the source list. -/
theorem foldl_citeStep_mem (content : List Char) (sources : List ContentItem) :
    ∀ (ms : List Marker) (acc : List CitationEntry) (c : CitationEntry),
      c ∈ ms.foldl (citeStep content sources) acc →
      c ∈ acc ∨ ∃ s ∈ sources, c.sourceId = s.id := by
  intro ms
  induction ms with
  | nil => intro acc c hc; exact Or.inl hc
  | cons m ms ih =>
    intro acc c hc
    rcases ih _ c hc with hacc | hsrc
    · rcases citeStep_eq_or_append content sources acc m with he | ⟨s, hs, he⟩
      · rw [he] at hacc
        exact Or.inl hacc
      · rw [he] at hacc
        rcases List.mem_append.mp hacc with h1 | h2
        · exact Or.inl h1
        · simp only [List.mem_singleton] at h2
          exact Or.inr ⟨s, hs, by rw [h2]⟩
    · exact Or.inr hsrc

/-- C3: the citations extracted for a report carry sequence numbers that
are exactly `1..citation_count` in order of marker occurrence, independent
of each marker's numeric label; the assembled report's `citation_count`
field equals the number of citations produced; and every citation
references a document of the report's recorded source-id list. -/
theorem C3_citation_numbering (md5 : String → String) (topic : String)
    (timeRangeDays : ℚ) (sources : List ContentItem)
    (reportContent executiveSummary : String) (year : Nat) (todayStr : String)
    (elapsedMs : ℚ) :
    let rd := buildReportData md5 topic timeRangeDays sources reportContent
      executiveSummary year todayStr elapsedMs
    rd.2 = extractCitationsFromContent reportContent sources
    ∧ rd.1.citation_count = rd.2.length
    ∧ rd.2.map (fun c => c.number) = List.range' 1 rd.2.length
    ∧ ∀ c ∈ rd.2, c.sourceId ∈ rd.1.source_ids := by
  dsimp only [buildReportData, extractCitationsFromContent]
  refine ⟨rfl, rfl, ?_, ?_⟩
  · exact foldl_citeStep_numbers reportContent.data sources _ [] (by simp)
  · intro c hc
    rcases foldl_citeStep_mem reportContent.data sources _ [] c hc with h | ⟨s, hs, h⟩
    · simp at h
    · exact List.mem_map.mpr ⟨s, hs, h.symm⟩

/-- C7: an inline marker whose numeric label is out of range for the
source list is silently skipped — the extraction yields exactly one
citation per in-range marker occurrence — and on the concrete text
`"Trends show growth [Source 1] and decline [Source 3]"` against a
two-element source list exactly one citation is produced, referencing the
first document. -/
theorem C7_out_of_range_skipped :
    (∀ (content : String) (sources : List ContentItem),
        (extractCitationsFromContent content sources).length
          = ((scanMarkers content.data).filter
              (fun m => markerInRange m.label sources.length)).length)
    ∧ ∀ d1 d2 : ContentItem,
        (extractCitationsFromContent
            "Trends show growth [Source 1] and decline [Source 3]" [d1, d2]).length = 1
        ∧ (extractCitationsFromContent
            "Trends show growth [Source 1] and decline [Source 3]" [d1, d2]).map
            (fun c => c.sourceId) = [d1.id] := by
  constructor
  · intro content sources
    unfold extractCitationsFromContent
    rw [foldl_citeStep_length]
    simp [List.countP_eq_length_filter]
  · intro d1 d2
    exact ⟨rfl, rfl⟩

end BFW
